import Mathlib

/-!
Verification of the event-processing pipeline of the gradio chat example
(`src/examples/gradio_example/main.py`).

The driver loop (`chat_function_with_agent`) is translated from the source.
The `event_handler` module (events, render context, the individual handlers
and `EventHandlerChain`) is imported by the source but its file is not part
of the repository snapshot, so those components are modelled from the
specification, as indicated on each definition.
-/

set_option maxHeartbeats 1000000

/-- Modelled from the spec: role of a chat message (`user | assistant | tool`). -/
inductive Role where
  | user
  | assistant
  | tool
deriving DecidableEq

/-- Modelled from the spec: optional structured info attached to a message for
UI annotation (tool name / tool result). -/
structure Metadata where
  toolName : Option String
  toolResult : Option String
deriving DecidableEq

/-- Modelled from the spec: a chat-displayable message (`role`, `content`,
optional `metadata`). -/
structure ChatMessage where
  role : Role
  content : String
  metadata : Metadata
deriving DecidableEq

/-- Modelled from the spec: variant-specific payload of a runtime event
(text-delta, tool-call-started, tool-call-result, agent-handoff,
run-completed, plus unknown wire kinds).  The text-delta payload is an
`Option` so that a malformed event (required field absent) is expressible. -/
inductive EventPayload where
  | textDelta (delta : Option String)
  | toolCallStarted (toolName : String) (toolArgs : String)
  | toolCallResult (toolName : String) (toolResult : String)
  | agentHandoff (targetAgent : String)
  | runCompleted
  | unknown (kind : String)
deriving DecidableEq

/-- Modelled from the spec: an immutable tagged event with a diagnostic
`sequence` number common to all variants. -/
structure Event where
  sequence : Nat
  payload : EventPayload
deriving DecidableEq

/-- Modelled from the spec: typed failure attributable to the offending
handler, carrying the event kind and sequence number. -/
inductive HandlerError where
  | malformedPayload (kind : String) (sequence : Nat)
deriving DecidableEq

/-- The per-run mutable context.  `response_buffer` and `current_messages`
are the two keys of the `context` dictionary built in
`chat_function_with_agent` (src/examples/gradio_example/main.py line 24);
`current_messages` is an `Option` because the driver reads it defensively
with `context.get("current_messages", [])`.  `currentIdx` models the spec's
`currentAssistantMessage` (a reference into `messages`) as an index into
`current_messages`. -/
structure RenderContext where
  response_buffer : String
  current_messages : Option (List ChatMessage)
  currentIdx : Nat
deriving DecidableEq

/-- Content of the in-progress assistant message referenced by `currentIdx`
(empty string when the reference is dangling). -/
def RenderContext.currentContent (ctx : RenderContext) : String :=
  (((ctx.current_messages.getD [])[ctx.currentIdx]?).map ChatMessage.content).getD ""

/-- Apply `f` to the element at index `i`, leaving the list unchanged when
`i` is out of range. -/
def updateAt : List ChatMessage → Nat → (ChatMessage → ChatMessage) → List ChatMessage
  | [], _, _ => []
  | a :: l, 0, f => f a :: l
  | a :: l, i + 1, f => a :: updateAt l i f

/-- Index of the last element satisfying `p`, if any. -/
def lastIdxWhere : List ChatMessage → (ChatMessage → Bool) → Option Nat
  | [], _ => none
  | a :: l, p =>
    match lastIdxWhere l p with
    | some i => some (i + 1)
    | none => if p a then some 0 else none

/-- Modelled from the spec: a polymorphic handler with a pure `canHandle`
predicate and a `handle` that folds one event into the context, returning
whether a user-visible change occurred (or a typed failure on a malformed
payload). -/
structure EventHandler where
  canHandle : Event → Bool
  handle : Event → RenderContext → Except HandlerError (Bool × RenderContext)

/-- A fresh, empty assistant message. -/
def emptyAssistantMessage : ChatMessage :=
  { role := Role.assistant, content := "", metadata := { toolName := none, toolResult := none } }

/-- Modelled from the spec: TextDeltaHandler appends the delta to `buffer`
and to `currentAssistantMessage.content` and always returns `true`; on a
malformed payload (absent delta) it raises a typed failure. -/
def TextDeltaHandler : EventHandler where
  canHandle e :=
    match e.payload with
    | .textDelta _ => true
    | _ => false
  handle e ctx :=
    match e.payload with
    | .textDelta (some d) =>
      let l := ctx.current_messages.getD []
      .ok (true, { ctx with
        response_buffer := ctx.response_buffer ++ d,
        current_messages :=
          some (updateAt l ctx.currentIdx (fun m => { m with content := m.content ++ d })) })
    | .textDelta none => .error (HandlerError.malformedPayload "text-delta" e.sequence)
    | _ => .ok (false, ctx)

/-- The tool-status entry appended on tool-call-started. -/
def toolStatusMessage (name : String) : ChatMessage :=
  { role := Role.tool, content := "Calling tool: " ++ name,
    metadata := { toolName := some name, toolResult := none } }

/-- Recognizes the pending tool-status entry for `name`: a tool message for
`name` whose result is still absent. -/
def pendingToolEntry (name : String) (m : ChatMessage) : Bool :=
  decide (m.role = Role.tool ∧ m.metadata.toolName = some name ∧
    m.metadata.toolResult = none)

/-- Fill the result metadata of the pending tool-status entry for `name`
(the last such entry); leave the list unchanged when no such entry exists. -/
def applyToolResult (name r : String) (l : List ChatMessage) : List ChatMessage :=
  match lastIdxWhere l (pendingToolEntry name) with
  | some i => updateAt l i (fun m =>
      { m with metadata := { m.metadata with toolResult := some r } })
  | none => l

/-- Modelled from the spec: ToolCallHandler appends a visible tool-status
entry on tool-call-started and fills that entry's result metadata on
tool-call-result, returning `true` in both cases. -/
def ToolCallHandler : EventHandler where
  canHandle e :=
    match e.payload with
    | .toolCallStarted _ _ => true
    | .toolCallResult _ _ => true
    | _ => false
  handle e ctx :=
    match e.payload with
    | .toolCallStarted name _ =>
      let l := ctx.current_messages.getD []
      .ok (true, { ctx with current_messages := some (l ++ [toolStatusMessage name]) })
    | .toolCallResult name r =>
      let l := ctx.current_messages.getD []
      .ok (true, { ctx with current_messages := some (applyToolResult name r l) })
    | _ => .ok (false, ctx)

/-- Modelled from the spec: HandoffHandler finalizes the current assistant
message, appends a new empty assistant message, resets `buffer`, and
returns `true`. -/
def HandoffHandler : EventHandler where
  canHandle e :=
    match e.payload with
    | .agentHandoff _ => true
    | _ => false
  handle e ctx :=
    match e.payload with
    | .agentHandoff _ =>
      let l := ctx.current_messages.getD []
      .ok (true, { response_buffer := "",
                   current_messages := some (l ++ [emptyAssistantMessage]),
                   currentIdx := l.length })
    | _ => .ok (false, ctx)

/-- Modelled from the spec: CompletionHandler performs no content mutation on
run-completed and returns `false`. -/
def CompletionHandler : EventHandler where
  canHandle e :=
    match e.payload with
    | .runCompleted => true
    | _ => false
  handle _ ctx := .ok (false, ctx)

/-- Modelled from the spec: FallbackHandler claims every event (placed last)
and ignores it, returning `false`. -/
def FallbackHandler : EventHandler where
  canHandle _ := true
  handle _ ctx := .ok (false, ctx)

/-- Modelled from the spec: first-match-wins dispatch over an ordered
handler list; if no handler claims the event, return `false` without
mutating the context. -/
def processChain : List EventHandler → Event → RenderContext → Except HandlerError (Bool × RenderContext)
  | [], _, ctx => .ok (false, ctx)
  | h :: hs, e, ctx => if h.canHandle e then h.handle e ctx else processChain hs e ctx

/-- Modelled from the spec: the registered handler order, specific handlers
before the catch-all fallback. -/
def EventHandlerChain.handlers : List EventHandler :=
  [TextDeltaHandler, ToolCallHandler, HandoffHandler, CompletionHandler, FallbackHandler]

/-- Modelled from the spec: `EventHandlerChain.process(event, context)`. -/
def EventHandlerChain.process_event (e : Event) (ctx : RenderContext) :
    Except HandlerError (Bool × RenderContext) :=
  processChain EventHandlerChain.handlers e ctx

/-- The context built at the start of `chat_function_with_agent`
(src/examples/gradio_example/main.py lines 21-24): an empty assistant
message, `response_buffer` empty, `current_messages` holding that single
message. -/
def initContext : RenderContext :=
  { response_buffer := "", current_messages := some [emptyAssistantMessage], currentIdx := 0 }

/-- Outcome of one driver run: the snapshots yielded so far, and either the
final context (normal stream exhaustion) or the propagated handler error. -/
inductive DriverResult where
  | ok (snapshots : List (List ChatMessage)) (final : RenderContext)
  | err (snapshots : List (List ChatMessage)) (error : HandlerError)
deriving DecidableEq

/-- The snapshots yielded on either exit path. -/
def DriverResult.snapshots : DriverResult → List (List ChatMessage)
  | .ok s _ => s
  | .err s _ => s

/-- The event loop of `chat_function_with_agent`
(src/examples/gradio_example/main.py lines 31-36): for each event of the
stream, call `process_event`; when it returns `true`, yield
`context.get("current_messages", [])`; a raised handler error propagates
out of the loop uncaught.  The loop is parametric in the chain's `process`
function, which the source receives as the closed-over
`event_handler_chain`. -/
def chat_function_with_agent
    (process : Event → RenderContext → Except HandlerError (Bool × RenderContext)) :
    List Event → RenderContext → DriverResult
  | [], ctx => .ok [] ctx
  | e :: es, ctx =>
    match process e ctx with
    | .error err => .err [] err
    | .ok (true, ctx') =>
      match chat_function_with_agent process es ctx' with
      | .ok s f => .ok ((ctx'.current_messages.getD []) :: s) f
      | .err s er => .err ((ctx'.current_messages.getD []) :: s) er
    | .ok (false, ctx') => chat_function_with_agent process es ctx'

/-- The per-event trace of the run: each entry is the (visible-change flag,
post-state) pair produced by exactly one `process` call on that event, in
stream order, truncated at the first raised error. -/
def processTrace
    (process : Event → RenderContext → Except HandlerError (Bool × RenderContext)) :
    List Event → RenderContext → List (Bool × RenderContext)
  | [], _ => []
  | e :: es, ctx =>
    match process e ctx with
    | .error _ => []
    | .ok (b, ctx') => (b, ctx') :: processTrace process es ctx'

/-- The snapshot a trace entry gives rise to, if any: the full current
message list when the flag is `true`, nothing otherwise. -/
def snapshotOfStep (p : Bool × RenderContext) : Option (List ChatMessage) :=
  if p.1 then some (p.2.current_messages.getD []) else none

/-- Context after folding the chain over a list of events (stopping at the
first error). -/
def runEvents : List Event → RenderContext → RenderContext
  | [], ctx => ctx
  | e :: es, ctx =>
    match EventHandlerChain.process_event e ctx with
    | .error _ => ctx
    | .ok (_, ctx') => runEvents es ctx'

/-- The sequence of visible-change flags the chain returned along a run. -/
def traceFlags
    (process : Event → RenderContext → Except HandlerError (Bool × RenderContext))
    (es : List Event) (ctx : RenderContext) : List Bool :=
  (processTrace process es ctx).map Prod.fst

/-- Left-to-right concatenation of a list of strings. -/
def concatStrings : List String → String
  | [] => ""
  | d :: ds => d ++ concatStrings ds

/-- A chain stub whose process call reports a visible change after dropping
the current-messages entry, exercising the driver's defensive read. -/
def droppingProcess (_e : Event) (ctx : RenderContext) :
    Except HandlerError (Bool × RenderContext) :=
  .ok (true, { ctx with current_messages := none })

/-! ### Equations of the chain on each event kind -/

/-- The chain on a well-formed text-delta: claimed by `TextDeltaHandler`. -/
theorem process_event_textDelta (seq : Nat) (d : String) (ctx : RenderContext) :
    EventHandlerChain.process_event ⟨seq, .textDelta (some d)⟩ ctx =
      .ok (true, { ctx with
        response_buffer := ctx.response_buffer ++ d,
        current_messages := some (updateAt (ctx.current_messages.getD []) ctx.currentIdx
          (fun m => { m with content := m.content ++ d })) }) := rfl

/-- The chain on a malformed text-delta: `TextDeltaHandler` raises. -/
theorem process_event_textDelta_none (seq : Nat) (ctx : RenderContext) :
    EventHandlerChain.process_event ⟨seq, .textDelta none⟩ ctx =
      .error (HandlerError.malformedPayload "text-delta" seq) := rfl

/-- The chain on tool-call-started: claimed by `ToolCallHandler`. -/
theorem process_event_toolStarted (seq : Nat) (name args : String) (ctx : RenderContext) :
    EventHandlerChain.process_event ⟨seq, .toolCallStarted name args⟩ ctx =
      .ok (true, { ctx with
        current_messages := some ((ctx.current_messages.getD []) ++ [toolStatusMessage name]) }) := rfl

/-- The chain on tool-call-result: claimed by `ToolCallHandler`. -/
theorem process_event_toolResult (seq : Nat) (name r : String) (ctx : RenderContext) :
    EventHandlerChain.process_event ⟨seq, .toolCallResult name r⟩ ctx =
      .ok (true, { ctx with
        current_messages := some (applyToolResult name r (ctx.current_messages.getD [])) }) := rfl

/-- The chain on agent-handoff: claimed by `HandoffHandler`. -/
theorem process_event_handoff (seq : Nat) (target : String) (ctx : RenderContext) :
    EventHandlerChain.process_event ⟨seq, .agentHandoff target⟩ ctx =
      .ok (true, { response_buffer := "",
                   current_messages := some ((ctx.current_messages.getD []) ++ [emptyAssistantMessage]),
                   currentIdx := (ctx.current_messages.getD []).length }) := rfl

/-- The chain on run-completed: claimed by `CompletionHandler`. -/
theorem process_event_runCompleted (seq : Nat) (ctx : RenderContext) :
    EventHandlerChain.process_event ⟨seq, .runCompleted⟩ ctx = .ok (false, ctx) := rfl

/-- The chain on an unknown kind: falls through to `FallbackHandler`. -/
theorem process_event_unknown (seq : Nat) (k : String) (ctx : RenderContext) :
    EventHandlerChain.process_event ⟨seq, .unknown k⟩ ctx = .ok (false, ctx) := rfl

/-! ### List infrastructure -/

theorem updateAt_length : ∀ (l : List ChatMessage) (i : Nat) (f : ChatMessage → ChatMessage),
    (updateAt l i f).length = l.length
  | [], _, _ => rfl
  | _ :: _, 0, _ => rfl
  | _ :: l, i + 1, f => congrArg Nat.succ (updateAt_length l i f)

theorem getElem?_updateAt : ∀ (l : List ChatMessage) (i j : Nat) (f : ChatMessage → ChatMessage),
    (updateAt l i f)[j]? = if j = i then l[j]?.map f else l[j]?
  | [], i, j, _ => by cases j <;> simp [updateAt]
  | _ :: _, 0, 0, _ => by simp [updateAt]
  | _ :: _, 0, j + 1, _ => by simp [updateAt]
  | _ :: _, i + 1, 0, _ => by simp [updateAt]
  | _ :: l, i + 1, j + 1, f => by
    simpa [updateAt] using getElem?_updateAt l i j f

theorem lastIdxWhere_spec : ∀ (l : List ChatMessage) (p : ChatMessage → Bool) (i : Nat),
    lastIdxWhere l p = some i → ∃ m, l[i]? = some m ∧ p m = true := by
  intro l
  induction l with
  | nil => intro p i h; simp [lastIdxWhere] at h
  | cons a l ih =>
    intro p i h
    unfold lastIdxWhere at h
    cases hrec : lastIdxWhere l p with
    | some j =>
      rw [hrec] at h
      obtain rfl : j + 1 = i := by simpa using h
      obtain ⟨m, hm, hp⟩ := ih p j hrec
      exact ⟨m, by simpa using hm, hp⟩
    | none =>
      rw [hrec] at h
      by_cases hpa : p a = true
      · simp [hpa] at h
        exact ⟨a, by simp [← h], hpa⟩
      · simp [hpa] at h

/-! ### Information order on messages and snapshots -/

/-- Information order on one message: same role, content only extended by
appending, tool name unchanged, tool result only filled in (never erased or
replaced). -/
def msgLE (m m' : ChatMessage) : Prop :=
  m.role = m'.role ∧ (∃ t, m.content ++ t = m'.content) ∧
  m.metadata.toolName = m'.metadata.toolName ∧
  (m.metadata.toolResult = none ∨ m.metadata.toolResult = m'.metadata.toolResult)

theorem msgLE_refl (m : ChatMessage) : msgLE m m :=
  ⟨rfl, ⟨"", String.append_empty _⟩, rfl, Or.inr rfl⟩

theorem msgLE_trans {a b c : ChatMessage} (h1 : msgLE a b) (h2 : msgLE b c) : msgLE a c := by
  obtain ⟨hr1, ⟨t1, ht1⟩, hn1, hres1⟩ := h1
  obtain ⟨hr2, ⟨t2, ht2⟩, hn2, hres2⟩ := h2
  refine ⟨hr1.trans hr2, ⟨t1 ++ t2, ?_⟩, hn1.trans hn2, ?_⟩
  · rw [← String.append_assoc, ht1, ht2]
  · rcases hres1 with h | h
    · exact Or.inl h
    · rcases hres2 with h' | h'
      · exact Or.inl (h.trans h')
      · exact Or.inr (h.trans h')

/-- Information order on snapshots: no message disappears, and each retained
position only gains information. -/
def msgsLE (l l' : List ChatMessage) : Prop :=
  l.length ≤ l'.length ∧
  ∀ (i : Nat) (m m' : ChatMessage), l[i]? = some m → l'[i]? = some m' → msgLE m m'

theorem msgsLE_refl (l : List ChatMessage) : msgsLE l l := by
  refine ⟨le_refl _, fun i m m' h h' => ?_⟩
  rw [h] at h'
  obtain rfl := Option.some.inj h'
  exact msgLE_refl m

theorem msgsLE_trans {l1 l2 l3 : List ChatMessage}
    (h1 : msgsLE l1 l2) (h2 : msgsLE l2 l3) : msgsLE l1 l3 := by
  refine ⟨h1.1.trans h2.1, fun i m m'' hm hm'' => ?_⟩
  have hi : i < l1.length := by
    by_contra hlt
    rw [List.getElem?_eq_none_iff.2 (Nat.le_of_not_lt hlt)] at hm
    cases hm
  have hi2 : i < l2.length := lt_of_lt_of_le hi h1.1
  have hm' : l2[i]? = some l2[i] := List.getElem?_eq_getElem hi2
  exact msgLE_trans (h1.2 i m _ hm hm') (h2.2 i _ m'' hm' hm'')

theorem msgsLE_updateAt (l : List ChatMessage) (i : Nat) (f : ChatMessage → ChatMessage)
    (hf : ∀ m, l[i]? = some m → msgLE m (f m)) : msgsLE l (updateAt l i f) := by
  refine ⟨le_of_eq (updateAt_length l i f).symm, fun j m m' hm hm' => ?_⟩
  rw [getElem?_updateAt] at hm'
  by_cases hji : j = i
  · subst hji
    rw [if_pos rfl, hm] at hm'
    obtain rfl := Option.some.inj hm'
    exact hf m hm
  · rw [if_neg hji, hm] at hm'
    obtain rfl := Option.some.inj hm'
    exact msgLE_refl m

theorem msgsLE_append (l l2 : List ChatMessage) : msgsLE l (l ++ l2) := by
  refine ⟨by simp, fun i m m' hm hm' => ?_⟩
  have hi : i < l.length := by
    by_contra hlt
    rw [List.getElem?_eq_none_iff.2 (Nat.le_of_not_lt hlt)] at hm
    cases hm
  rw [List.getElem?_append_left hi, hm] at hm'
  obtain rfl := Option.some.inj hm'
  exact msgLE_refl m

theorem msgsLE_applyToolResult (name r : String) (l : List ChatMessage) :
    msgsLE l (applyToolResult name r l) := by
  unfold applyToolResult
  cases hfind : lastIdxWhere l (pendingToolEntry name) with
  | none => exact msgsLE_refl l
  | some i =>
    refine msgsLE_updateAt l i _ (fun m hm => ?_)
    obtain ⟨m0, hm0, hp⟩ := lastIdxWhere_spec l _ i hfind
    obtain rfl := Option.some.inj (hm0.symm.trans hm)
    have hprop := of_decide_eq_true hp
    exact ⟨rfl, ⟨"", String.append_empty _⟩, rfl, Or.inl hprop.2.2⟩

/-- Injectivity helper for chain results. -/
theorem ok_inj {b b' : Bool} {c c' : RenderContext}
    (h : (Except.ok (b, c) : Except HandlerError (Bool × RenderContext)) = .ok (b', c')) :
    b = b' ∧ c = c' := by
  injection h with h1
  exact ⟨congrArg Prod.fst h1, congrArg Prod.snd h1⟩

/-- Every successful chain step only adds information to the visible message
list. -/
theorem process_event_mono (e : Event) (ctx : RenderContext) (b : Bool) (ctx' : RenderContext)
    (h : EventHandlerChain.process_event e ctx = .ok (b, ctx')) :
    msgsLE (ctx.current_messages.getD []) (ctx'.current_messages.getD []) := by
  obtain ⟨seq, pl⟩ := e
  cases pl with
  | textDelta d =>
    cases d with
    | none =>
      rw [process_event_textDelta_none] at h
      cases h
    | some d =>
      rw [process_event_textDelta] at h
      obtain ⟨hb, hc⟩ := ok_inj h
      subst hc
      exact msgsLE_updateAt _ _ _ (fun m _ => ⟨rfl, ⟨d, rfl⟩, rfl, Or.inr rfl⟩)
  | toolCallStarted name args =>
    rw [process_event_toolStarted] at h
    obtain ⟨hb, hc⟩ := ok_inj h
    subst hc
    exact msgsLE_append _ _
  | toolCallResult name r =>
    rw [process_event_toolResult] at h
    obtain ⟨hb, hc⟩ := ok_inj h
    subst hc
    exact msgsLE_applyToolResult name r _
  | agentHandoff target =>
    rw [process_event_handoff] at h
    obtain ⟨hb, hc⟩ := ok_inj h
    subst hc
    exact msgsLE_append _ _
  | runCompleted =>
    rw [process_event_runCompleted] at h
    obtain ⟨hb, hc⟩ := ok_inj h
    subst hc
    exact msgsLE_refl _
  | unknown k =>
    rw [process_event_unknown] at h
    obtain ⟨hb, hc⟩ := ok_inj h
    subst hc
    exact msgsLE_refl _

/-! ### Driver equations -/

theorem chat_nil (process : Event → RenderContext → Except HandlerError (Bool × RenderContext))
    (ctx : RenderContext) : chat_function_with_agent process [] ctx = .ok [] ctx := rfl

theorem chat_cons_error
    (process : Event → RenderContext → Except HandlerError (Bool × RenderContext))
    (e : Event) (es : List Event) (ctx : RenderContext) (err : HandlerError)
    (h : process e ctx = .error err) :
    chat_function_with_agent process (e :: es) ctx = .err [] err := by
  conv_lhs => rw [chat_function_with_agent]
  simp only [h]

theorem chat_cons_false
    (process : Event → RenderContext → Except HandlerError (Bool × RenderContext))
    (e : Event) (es : List Event) (ctx ctx' : RenderContext)
    (h : process e ctx = .ok (false, ctx')) :
    chat_function_with_agent process (e :: es) ctx = chat_function_with_agent process es ctx' := by
  conv_lhs => rw [chat_function_with_agent]
  simp only [h]

theorem snapshots_cons_true
    (process : Event → RenderContext → Except HandlerError (Bool × RenderContext))
    (e : Event) (es : List Event) (ctx ctx' : RenderContext)
    (h : process e ctx = .ok (true, ctx')) :
    (chat_function_with_agent process (e :: es) ctx).snapshots =
      (ctx'.current_messages.getD []) :: (chat_function_with_agent process es ctx').snapshots := by
  conv_lhs => rw [chat_function_with_agent]
  simp only [h]
  cases hrec : chat_function_with_agent process es ctx' <;>
    simp only [hrec, DriverResult.snapshots]

theorem trace_cons_ok
    (process : Event → RenderContext → Except HandlerError (Bool × RenderContext))
    (e : Event) (es : List Event) (ctx : RenderContext) (b : Bool) (ctx' : RenderContext)
    (h : process e ctx = .ok (b, ctx')) :
    processTrace process (e :: es) ctx = (b, ctx') :: processTrace process es ctx' := by
  conv_lhs => rw [processTrace]
  simp only [h]

theorem trace_cons_error
    (process : Event → RenderContext → Except HandlerError (Bool × RenderContext))
    (e : Event) (es : List Event) (ctx : RenderContext) (err : HandlerError)
    (h : process e ctx = .error err) :
    processTrace process (e :: es) ctx = [] := by
  conv_lhs => rw [processTrace]
  simp only [h]

theorem runEvents_cons_ok (e : Event) (es : List Event) (ctx : RenderContext) (b : Bool)
    (ctx' : RenderContext) (h : EventHandlerChain.process_event e ctx = .ok (b, ctx')) :
    runEvents (e :: es) ctx = runEvents es ctx' := by
  conv_lhs => rw [runEvents]
  simp only [h]

/-! ### Driver lemmas -/

/-- The snapshots the driver yields are exactly the per-event trace filtered
to the events whose chain call returned `true`, each snapshot being the full
current message list at that point. -/
theorem driver_snapshots_eq
    (process : Event → RenderContext → Except HandlerError (Bool × RenderContext)) :
    ∀ (es : List Event) (ctx : RenderContext),
    (chat_function_with_agent process es ctx).snapshots =
      (processTrace process es ctx).filterMap snapshotOfStep := by
  intro es
  induction es with
  | nil => intro ctx; rfl
  | cons e es ih =>
    intro ctx
    cases hp : process e ctx with
    | error err =>
      rw [chat_cons_error process e es ctx err hp, trace_cons_error process e es ctx err hp]
      rfl
    | ok p =>
      obtain ⟨b, ctx'⟩ := p
      rw [trace_cons_ok process e es ctx b ctx' hp, List.filterMap_cons]
      cases b with
      | false =>
        rw [chat_cons_false process e es ctx ctx' hp]
        rw [show snapshotOfStep (false, ctx') = none from rfl]
        exact ih ctx'
      | true =>
        rw [snapshots_cons_true process e es ctx ctx' hp]
        rw [show snapshotOfStep (true, ctx') = some (ctx'.current_messages.getD []) from rfl]
        rw [ih ctx']

theorem chain_le_head {a b : List ChatMessage} {l : List (List ChatMessage)}
    (hab : msgsLE a b) (h : List.Chain' msgsLE (b :: l)) : List.Chain' msgsLE (a :: l) := by
  cases l with
  | nil => exact List.chain'_singleton a
  | cons c l =>
    rw [List.chain'_cons] at h ⊢
    exact ⟨msgsLE_trans hab h.1, h.2⟩

/-- Along one run of the driver over the concrete chain, the initial message
list followed by all yielded snapshots forms a monotone chain in the
information order. -/
theorem driver_snapshots_chain :
    ∀ (es : List Event) (ctx : RenderContext),
    List.Chain' msgsLE ((ctx.current_messages.getD []) ::
      (chat_function_with_agent EventHandlerChain.process_event es ctx).snapshots) := by
  intro es
  induction es with
  | nil => intro ctx; exact List.chain'_singleton _
  | cons e es ih =>
    intro ctx
    cases hp : EventHandlerChain.process_event e ctx with
    | error err =>
      rw [chat_cons_error EventHandlerChain.process_event e es ctx err hp]
      exact List.chain'_singleton _
    | ok p =>
      obtain ⟨b, ctx'⟩ := p
      have hmono := process_event_mono e ctx b ctx' hp
      cases b with
      | false =>
        rw [chat_cons_false EventHandlerChain.process_event e es ctx ctx' hp]
        exact chain_le_head hmono (ih ctx')
      | true =>
        rw [snapshots_cons_true EventHandlerChain.process_event e es ctx ctx' hp,
          List.chain'_cons]
        exact ⟨hmono, ih ctx'⟩

/-! ### The RenderContext invariant -/

theorem lt_of_getElem?_eq_some {l : List ChatMessage} {i : Nat} {m : ChatMessage}
    (h : l[i]? = some m) : i < l.length := by
  by_contra hlt
  rw [List.getElem?_eq_none_iff.2 (Nat.le_of_not_lt hlt)] at h
  cases h

/-- The per-run invariant: `currentIdx` designates the (single) in-progress
assistant message — a valid index into `current_messages`, of assistant
role — and the running `response_buffer` is reflected in (is a suffix of)
that message's content. -/
def ContextInv (ctx : RenderContext) : Prop :=
  ∃ l m, ctx.current_messages = some l ∧ l[ctx.currentIdx]? = some m ∧
    m.role = Role.assistant ∧ ∃ t, t ++ ctx.response_buffer = m.content

theorem contextInv_initContext : ContextInv initContext :=
  ⟨[emptyAssistantMessage], emptyAssistantMessage, rfl, rfl, rfl, ⟨"", rfl⟩⟩

/-- Every successful chain step preserves the invariant. -/
theorem contextInv_preserved (e : Event) (ctx : RenderContext) (b : Bool) (ctx' : RenderContext)
    (hinv : ContextInv ctx) (h : EventHandlerChain.process_event e ctx = .ok (b, ctx')) : ContextInv ctx' := by
  obtain ⟨l, m, hcm, hget, hrole, t, hbuf⟩ := hinv
  obtain ⟨seq, pl⟩ := e
  cases pl with
  | textDelta d =>
    cases d with
    | none =>
      rw [process_event_textDelta_none] at h
      cases h
    | some d =>
      rw [process_event_textDelta] at h
      obtain ⟨hb, hc⟩ := ok_inj h
      subst hc
      simp only [hcm, Option.getD_some]
      refine ⟨updateAt l ctx.currentIdx (fun m0 => { m0 with content := m0.content ++ d }),
        { m with content := m.content ++ d }, rfl, ?_, hrole, ⟨t, ?_⟩⟩
      · rw [getElem?_updateAt, if_pos rfl, hget]
        rfl
      · show t ++ (ctx.response_buffer ++ d) = m.content ++ d
        rw [← String.append_assoc, hbuf]
  | toolCallStarted name args =>
    rw [process_event_toolStarted] at h
    obtain ⟨hb, hc⟩ := ok_inj h
    subst hc
    simp only [hcm, Option.getD_some]
    refine ⟨l ++ [toolStatusMessage name], m, rfl, ?_, hrole, ⟨t, hbuf⟩⟩
    rw [List.getElem?_append_left (lt_of_getElem?_eq_some hget)]
    exact hget
  | toolCallResult name r =>
    rw [process_event_toolResult] at h
    obtain ⟨hb, hc⟩ := ok_inj h
    subst hc
    simp only [hcm, Option.getD_some]
    unfold applyToolResult
    cases hfind : lastIdxWhere l (pendingToolEntry name) with
    | none => exact ⟨l, m, rfl, hget, hrole, t, hbuf⟩
    | some i =>
      by_cases hidx : ctx.currentIdx = i
      · refine ⟨_, { m with metadata := { m.metadata with toolResult := some r } },
          rfl, ?_, hrole, ⟨t, hbuf⟩⟩
        rw [getElem?_updateAt, if_pos hidx, hget]
        rfl
      · refine ⟨_, m, rfl, ?_, hrole, ⟨t, hbuf⟩⟩
        rw [getElem?_updateAt, if_neg hidx]
        exact hget
  | agentHandoff target =>
    rw [process_event_handoff] at h
    obtain ⟨hb, hc⟩ := ok_inj h
    subst hc
    simp only [hcm, Option.getD_some]
    exact ⟨l ++ [emptyAssistantMessage], emptyAssistantMessage, rfl,
      List.getElem?_concat_length l emptyAssistantMessage, rfl, ⟨"", rfl⟩⟩
  | runCompleted =>
    rw [process_event_runCompleted] at h
    obtain ⟨hb, hc⟩ := ok_inj h
    subst hc
    exact ⟨l, m, hcm, hget, hrole, t, hbuf⟩
  | unknown k =>
    rw [process_event_unknown] at h
    obtain ⟨hb, hc⟩ := ok_inj h
    subst hc
    exact ⟨l, m, hcm, hget, hrole, t, hbuf⟩

/-! ### Text-delta accumulation and no-op repetition -/

theorem traceFlags_cons_ok
    (process : Event → RenderContext → Except HandlerError (Bool × RenderContext))
    (e : Event) (es : List Event) (ctx : RenderContext) (b : Bool) (ctx' : RenderContext)
    (h : process e ctx = .ok (b, ctx')) :
    traceFlags process (e :: es) ctx = b :: traceFlags process es ctx' := by
  unfold traceFlags
  rw [trace_cons_ok process e es ctx b ctx' h, List.map_cons]

theorem runEvents_replicate_unknown (seq : Nat) (k : String) :
    ∀ (n : Nat) (ctx : RenderContext),
    runEvents (List.replicate n ⟨seq, .unknown k⟩) ctx = ctx
  | 0, _ => rfl
  | n + 1, ctx => by
    rw [List.replicate_succ,
      runEvents_cons_ok _ _ ctx false ctx (process_event_unknown seq k ctx)]
    exact runEvents_replicate_unknown seq k n ctx

/-- Folding well-formed text-delta events: each call returns `true` and the
current assistant message accumulates the concatenated deltas. -/
theorem textDelta_run (ds : List (Nat × String)) :
    ∀ (ctx : RenderContext) (l : List ChatMessage) (m : ChatMessage),
    ctx.current_messages = some l → l[ctx.currentIdx]? = some m →
    traceFlags EventHandlerChain.process_event
        (ds.map (fun p => { sequence := p.1, payload := .textDelta (some p.2) })) ctx =
      List.replicate ds.length true ∧
    (runEvents (ds.map (fun p => { sequence := p.1, payload := .textDelta (some p.2) }))
        ctx).currentContent = ctx.currentContent ++ concatStrings (ds.map Prod.snd) := by
  induction ds with
  | nil =>
    intro ctx l m hcm hget
    exact ⟨rfl, (String.append_empty _).symm⟩
  | cons p ds ih =>
    intro ctx l m hcm hget
    have hstep := process_event_textDelta p.1 p.2 ctx
    have hcc : ctx.currentContent = m.content := by
      unfold RenderContext.currentContent
      rw [hcm, Option.getD_some, hget]
      rfl
    obtain ⟨hfl, hct⟩ := ih
      { ctx with
        response_buffer := ctx.response_buffer ++ p.2,
        current_messages := some (updateAt (ctx.current_messages.getD []) ctx.currentIdx
          (fun m0 => { m0 with content := m0.content ++ p.2 })) }
      (updateAt l ctx.currentIdx (fun m0 => { m0 with content := m0.content ++ p.2 }))
      { m with content := m.content ++ p.2 }
      (by simp only [hcm, Option.getD_some])
      (by
        show (updateAt l ctx.currentIdx _)[ctx.currentIdx]? = _
        rw [getElem?_updateAt, if_pos rfl, hget]
        rfl)
    constructor
    · rw [List.map_cons,
        traceFlags_cons_ok EventHandlerChain.process_event _ _ ctx true _ hstep,
        List.length_cons, List.replicate_succ, hfl]
    · rw [List.map_cons, runEvents_cons_ok _ _ ctx true _ hstep, hct]
      have hcc2 : ({ ctx with
          response_buffer := ctx.response_buffer ++ p.2,
          current_messages := some (updateAt (ctx.current_messages.getD []) ctx.currentIdx
            (fun m0 => { m0 with content := m0.content ++ p.2 })) }
            : RenderContext).currentContent = m.content ++ p.2 := by
        unfold RenderContext.currentContent
        simp only [hcm, Option.getD_some]
        rw [getElem?_updateAt, if_pos rfl, hget]
        rfl
      rw [hcc2, hcc, List.map_cons]
      rw [show concatStrings (p.2 :: ds.map Prod.snd) = p.2 ++ concatStrings (ds.map Prod.snd)
        from rfl, String.append_assoc]

/-! ### Claims -/

/-- C1: for every event pulled from the run's stream, the driver makes
exactly one chain call on it (the per-event trace), and the snapshots it
yields are exactly the trace entries whose call returned `true` — the event
is consumed without any snapshot being emitted when the call returned
`false`. -/
theorem c1_driver_emits_iff_process_true
    (process : Event → RenderContext → Except HandlerError (Bool × RenderContext))
    (es : List Event) (ctx : RenderContext) :
    (chat_function_with_agent process es ctx).snapshots =
      (processTrace process es ctx).filterMap snapshotOfStep :=
  driver_snapshots_eq process es ctx

/-- C2: each emitted snapshot is a complete current view of the message
list (it equals the full `current_messages` of the post-state of its
triggering event, in event order), and successive snapshots within one run
are monotonically non-decreasing in information content. -/
theorem c2_snapshots_cumulative_ordered_monotone (es : List Event) (ctx : RenderContext) :
    (chat_function_with_agent EventHandlerChain.process_event es ctx).snapshots =
      (processTrace EventHandlerChain.process_event es ctx).filterMap snapshotOfStep ∧
    List.Chain' msgsLE
      (chat_function_with_agent EventHandlerChain.process_event es ctx).snapshots :=
  ⟨driver_snapshots_eq EventHandlerChain.process_event es ctx,
    (driver_snapshots_chain es ctx).tail⟩

/-- C3: processing n text-delta events with payloads d1..dn from the
driver's initial context makes the chain return `true` on exactly those n
calls, and leaves the current assistant message content equal to the
concatenation d1 ++ ... ++ dn. -/
theorem c3_text_deltas_concatenate (ds : List (Nat × String)) :
    traceFlags EventHandlerChain.process_event
        (ds.map (fun p => { sequence := p.1, payload := .textDelta (some p.2) }))
        initContext =
      List.replicate ds.length true ∧
    (runEvents (ds.map (fun p => { sequence := p.1, payload := .textDelta (some p.2) }))
        initContext).currentContent = concatStrings (ds.map Prod.snd) := by
  obtain ⟨hfl, hct⟩ :=
    textDelta_run ds initContext [emptyAssistantMessage] emptyAssistantMessage rfl rfl
  refine ⟨hfl, ?_⟩
  rw [hct]
  rfl

/-- C4: an agent-handoff always starts a new assistant message: the chain
returns `true`, the buffer is reset, the new current assistant message is a
different entry (index) with empty content, and the pre-handoff message is
unchanged at its position in the message list. -/
theorem c4_handoff_starts_new_message (seq : Nat) (target : String) (ctx : RenderContext)
    (l : List ChatMessage) (hcm : ctx.current_messages = some l)
    (hidx : ctx.currentIdx < l.length) :
    ∃ ctx',
      EventHandlerChain.process_event ⟨seq, .agentHandoff target⟩ ctx = .ok (true, ctx') ∧
      ctx'.response_buffer = "" ∧
      ctx'.current_messages = some (l ++ [emptyAssistantMessage]) ∧
      ctx'.currentIdx = l.length ∧
      ctx'.currentIdx ≠ ctx.currentIdx ∧
      ctx'.currentContent = "" ∧
      (l ++ [emptyAssistantMessage])[ctx.currentIdx]? = l[ctx.currentIdx]? := by
  refine ⟨_, process_event_handoff seq target ctx, rfl, ?_, ?_, ?_, ?_, ?_⟩
  · simp only [hcm, Option.getD_some]
  · simp only [hcm, Option.getD_some]
  · show (ctx.current_messages.getD []).length ≠ ctx.currentIdx
    simp only [hcm, Option.getD_some]
    exact (Nat.ne_of_lt hidx).symm
  · unfold RenderContext.currentContent
    simp only [hcm, Option.getD_some]
    rw [List.getElem?_concat_length]
    rfl
  · exact List.getElem?_append_left hidx

/-- Witness for C4 at the driver's initial context. -/
theorem c4_witness :
    ∃ ctx',
      EventHandlerChain.process_event ⟨3, .agentHandoff "Gradio"⟩ initContext = .ok (true, ctx') ∧
      ctx'.response_buffer = "" ∧
      ctx'.current_messages = some ([emptyAssistantMessage] ++ [emptyAssistantMessage]) ∧
      ctx'.currentIdx = [emptyAssistantMessage].length ∧
      ctx'.currentIdx ≠ initContext.currentIdx ∧
      ctx'.currentContent = "" ∧
      ([emptyAssistantMessage] ++ [emptyAssistantMessage])[initContext.currentIdx]? =
        [emptyAssistantMessage][initContext.currentIdx]? :=
  c4_handoff_starts_new_message 3 "Gradio" initContext [emptyAssistantMessage] rfl
    (by decide)

/-- C5: a run-completed event never mutates the message list nor any message
content — the chain returns `false` with the context unchanged. -/
theorem c5_run_completed_no_mutation (seq : Nat) (ctx : RenderContext) :
    EventHandlerChain.process_event ⟨seq, .runCompleted⟩ ctx = .ok (false, ctx) :=
  process_event_runCompleted seq ctx

/-- C6: an event kind matching no specific handler is absorbed by the
fallback: the chain returns `false` with the context unchanged, and
processing it any number of times in succession equals processing it zero
times. -/
theorem c6_unknown_event_noop (seq : Nat) (k : String) (ctx : RenderContext) (n : Nat) :
    EventHandlerChain.process_event ⟨seq, .unknown k⟩ ctx = .ok (false, ctx) ∧
    runEvents (List.replicate n ⟨seq, .unknown k⟩) ctx = ctx :=
  ⟨process_event_unknown seq k ctx, runEvents_replicate_unknown seq k n ctx⟩

/-- C7: a handler that raises on a malformed payload (here: a text-delta
with an absent delta) produces a typed failure out of the chain, and the
driver propagates any chain failure to its caller instead of catching or
swallowing it. -/
theorem c7_handler_failure_propagates :
    (∀ (seq : Nat) (ctx : RenderContext),
      EventHandlerChain.process_event ⟨seq, .textDelta none⟩ ctx =
        .error (HandlerError.malformedPayload "text-delta" seq)) ∧
    (∀ (process : Event → RenderContext → Except HandlerError (Bool × RenderContext))
      (e : Event) (es : List Event) (ctx : RenderContext) (err : HandlerError),
      process e ctx = .error err →
      chat_function_with_agent process (e :: es) ctx = .err [] err) :=
  ⟨fun seq ctx => process_event_textDelta_none seq ctx,
    fun process e es ctx err h => chat_cons_error process e es ctx err h⟩

/-- Witness for C7: a malformed text-delta aborts the run with the typed
failure. -/
theorem c7_witness :
    chat_function_with_agent EventHandlerChain.process_event
        [⟨0, .textDelta none⟩] initContext =
      .err [] (HandlerError.malformedPayload "text-delta" 0) :=
  c7_handler_failure_propagates.2 EventHandlerChain.process_event ⟨0, .textDelta none⟩ []
    initContext (HandlerError.malformedPayload "text-delta" 0) rfl

/-- C9: the RenderContext invariant — a single designated in-progress
assistant message (one valid index of assistant role) whose content
reflects the running buffer — holds at context creation and after every
successful handler invocation. -/
theorem c9_invariant_preserved :
    ContextInv initContext ∧
    ∀ (e : Event) (ctx : RenderContext) (b : Bool) (ctx' : RenderContext),
      ContextInv ctx → EventHandlerChain.process_event e ctx = .ok (b, ctx') →
      ContextInv ctx' :=
  ⟨contextInv_initContext,
    fun e ctx b ctx' hinv h => contextInv_preserved e ctx b ctx' hinv h⟩

/-- Witness for C9: the invariant after a first text delta. -/
theorem c9_witness :
    ContextInv { response_buffer := "Hi",
                 current_messages := some [{ role := Role.assistant,
                                             content := "Hi",
                                             metadata := { toolName := none,
                                                           toolResult := none } }],
                 currentIdx := 0 } :=
  c9_invariant_preserved.2 ⟨0, .textDelta (some "Hi")⟩ initContext true _
    c9_invariant_preserved.1 rfl

/-- C10: when the chain reports a visible change but `current_messages` is
absent from the context, the driver still yields — the defensive
`context.get("current_messages", [])` read makes the snapshot the empty
list instead of an error. -/
theorem c10_missing_messages_yields_empty
    (process : Event → RenderContext → Except HandlerError (Bool × RenderContext))
    (e : Event) (es : List Event) (ctx ctx' : RenderContext)
    (h : process e ctx = .ok (true, ctx')) (hnone : ctx'.current_messages = none) :
    (chat_function_with_agent process (e :: es) ctx).snapshots.head? = some [] := by
  rw [snapshots_cons_true process e es ctx ctx' h, hnone]
  rfl


/-- Witness for C10: the dropped key makes the driver yield `[]`. -/
theorem c10_witness :
    (chat_function_with_agent droppingProcess [⟨0, .runCompleted⟩] initContext).snapshots.head? =
      some [] :=
  c10_missing_messages_yields_empty droppingProcess ⟨0, .runCompleted⟩ [] initContext
    { initContext with current_messages := none } rfl rfl
